import Mathlib

/-!
Shallow embedding of the trading-simulation core of the repository
(`src/frontend/src/App.jsx`): the OHLC price-series generator
(`generateOHLC`), the zustand store operations (`addTrade`, `updateBalance`,
`addXP`, `addToast`), the behavioral-bias detector (`detectBiases`), and the
`SimulationModule` trade handlers (`handleTrade`, `closePosition`,
`unrealizedPnL`).

JS numbers are modelled as `ℚ`; `x.toFixed(2)` (which in JS formats to a
string whose numeric value is `x` rounded to two decimals, half away from
zero) is modelled by `toFixed2`; `Math.random()` is modelled by an explicit
ambient stream `rng : ℕ → ℚ` of draws (valid draws lie in `[0, 1)`), and
`Date.now()` by an explicit `now : ℤ` argument, since Lean is pure.
Toast messages (display-only template strings) are elided; a toast is
modelled by its `type` field.
-/

/-- Numeric value of JS `x.toFixed(2)`: round to two decimal places, ties
away from zero (ECMA-262 `Number.prototype.toFixed` on the exact rational). -/
def toFixed2 (x : ℚ) : ℚ :=
  if x < 0 then -(((⌊-x * 100 + 1 / 2⌋ : ℤ) : ℚ) / 100)
  else ((⌊x * 100 + 1 / 2⌋ : ℤ) : ℚ) / 100

/-- One OHLCV price bar, as pushed by `generateOHLC`
(src/frontend/src/App.jsx lines 80-94). The JS field `open` is `open_`
(`open` is a Lean keyword). -/
structure Candle where
  time : ℤ
  open_ : ℚ
  high : ℚ
  low : ℚ
  close : ℚ
  volume : ℚ
  deriving DecidableEq, Repr

/-- Loop body of `generateOHLC`: `n` remaining iterations, loop counter `i`
(runs from `count` down to `0`), running unrounded `close`, and `j` the index
of the next ambient `Math.random()` draw (each iteration consumes four:
change, high wick, low wick, volume). -/
def generateOHLCAux (vol : ℚ) (now : ℤ) (rng : ℕ → ℚ) :
    ℕ → ℤ → ℚ → ℕ → List Candle
  | 0, _, _, _ => []
  | n + 1, i, close0, j =>
    let o := close0
    let change := (rng j - 48 / 100) * vol
    let close1 := max (o + change) 1000
    let high := max o close1 + rng (j + 1) * vol * (1 / 2)
    let low := min o close1 - rng (j + 2) * vol * (1 / 2)
    let volume := (⌊(50000 : ℚ) + rng (j + 3) * 200000⌋ : ℤ)
    { time := now - i * 300, open_ := toFixed2 o, high := toFixed2 high,
      low := toFixed2 low, close := toFixed2 close1, volume := (volume : ℚ) }
      :: generateOHLCAux vol now rng n (i - 1) close1 (j + 4)

/-- `generateOHLC(count, base, volatility)` from src/frontend/src/App.jsx:
the loop `for (let i = count; i >= 0; i--)` runs `count + 1` times. `now` is
the captured `Math.floor(Date.now() / 1000)` and `rng` the ambient
`Math.random()` stream. -/
def generateOHLC (count : ℕ) (base vol : ℚ) (now : ℤ) (rng : ℕ → ℚ) :
    List Candle :=
  generateOHLCAux vol now rng (count + 1) (count : ℤ) base 0

/-- The ambient random stream is valid when every draw lies in `[0, 1)`,
as `Math.random()` guarantees. -/
def ValidRng (rng : ℕ → ℚ) : Prop := ∀ n, 0 ≤ rng n ∧ rng n < 1

/-- Trade direction, the `"BUY"` / `"SELL"` strings passed to `handleTrade`
by the two order buttons. -/
inductive Direction where
  | BUY : Direction
  | SELL : Direction
  deriving DecidableEq, Repr

/-- Toast kinds used by `addToast` calls in the simulation module; the
display-only `message` template string is elided. -/
inductive ToastType where
  | success : ToastType
  | warning : ToastType
  | error : ToastType
  deriving DecidableEq, Repr

/-- The open position object built in `handleTrade`:
`{ direction, entry, qty, confidence, candleEntry: candles.length, ts }`. -/
structure Position where
  direction : Direction
  entry : ℚ
  qty : ℚ
  confidence : ℚ
  candleEntry : ℕ
  ts : ℤ
  deriving DecidableEq, Repr

/-- The closed-trade object built in `closePosition`: the spread position
plus `{ exit, pnl, candlesHeld }`. -/
structure Trade where
  direction : Direction
  entry : ℚ
  qty : ℚ
  confidence : ℚ
  candleEntry : ℕ
  ts : ℤ
  exit : ℚ
  pnl : ℚ
  candlesHeld : ℤ
  deriving DecidableEq, Repr

/-- An entry of the store's `biasHistory`: the trade spread together with
its detected `biases` and a timestamp. -/
structure BiasEntry where
  trade : Trade
  biases : List String
  ts : ℤ
  deriving DecidableEq, Repr

/-- The slice of the zustand `useStore` state read and written by the
simulation core (`trades`, `biasHistory`, `balance`, `pnl`, `xp`, `xpMax`,
`confidenceSlider`, `toasts`). `trades` is newest-first, as produced by
`[trade, ...get().trades]`. -/
structure Store where
  trades : List Trade
  biasHistory : List BiasEntry
  balance : ℚ
  pnl : ℚ
  xp : ℚ
  xpMax : ℚ
  confidenceSlider : ℚ
  toasts : List ToastType
  deriving DecidableEq, Repr

/-- `detectBiases(trade, state)` from src/frontend/src/App.jsx lines 68-77.
`recent = state.trades.slice(0, 3)`; each rule pushes its flag string.
The JS optional-chaining accesses `recent[0]?.pnl`, `recent[1]?.pnl` are
realised by the pattern matches (a comparison against `undefined` is
false), and `(recent[0]?.qty || 0)` coincides with `recent[0].qty` whenever
`recent[0]` exists, since `0 || 0` is `0`. -/
def detectBiases (trade : Trade) (state : Store) : List String :=
  let recent := state.trades.take 3
  (if trade.confidence > 85 then ["Overconfidence"] else []) ++
  (if trade.candlesHeld < 3 then ["Early Exit"] else []) ++
  (match recent with
   | a :: b :: _ => if a.pnl < 0 ∧ b.pnl < 0 then ["Revenge Trading"] else []
   | _ => []) ++
  (if 3 ≤ recent.length ∧ ∀ t ∈ recent, t.direction = trade.direction
   then ["Herding"] else []) ++
  (match recent with
   | a :: _ => if a.pnl > 0 ∧ trade.qty > a.qty then ["FOMO"] else []
   | _ => [])

/-- `addToast` from the store: appends to `toasts` (the timed auto-removal
is a wall-clock effect outside the embedding). -/
def addToast (t : ToastType) (s : Store) : Store :=
  { s with toasts := s.toasts ++ [t] }

/-- `addTrade(trade)` from src/frontend/src/App.jsx lines 53-59: prepend the
trade and keep the newest 50; run `detectBiases` against the state *before*
the update; if any biases were found, prepend a `biasHistory` entry and keep
the newest 20. -/
def addTrade (now : ℤ) (trade : Trade) (s : Store) : Store :=
  let trades := (trade :: s.trades).take 50
  let biases := detectBiases trade s
  let biasHistory :=
    if biases.length ≠ 0 then ⟨trade, biases, now⟩ :: s.biasHistory
    else s.biasHistory
  { s with trades := trades, biasHistory := biasHistory.take 20 }

/-- `updateBalance(delta)`: adds `delta` to both `balance` and `pnl`. -/
def updateBalance (delta : ℚ) (s : Store) : Store :=
  { s with balance := s.balance + delta, pnl := s.pnl + delta }

/-- `addXP(pts)`: adds points, capped at `xpMax`. -/
def addXP (pts : ℚ) (s : Store) : Store :=
  { s with xp := if s.xp + pts ≥ s.xpMax then s.xpMax else s.xp + pts }

/-- The error vocabulary of the spec's state-machine contract. The handlers
in the source contain no `throw`, so the embedded handlers below only ever
return `Except.ok`; the type records where an `InvalidStateError` could be
surfaced. -/
inductive SimError where
  | invalidStateError : SimError
  deriving DecidableEq, Repr

/-- The local React state of `SimulationModule` relevant to the core, plus
the store: `position`, `currentPrice`, `candles`, `qty`, `tradeHistory`,
`showOutcome`, `biasWarning` (modelled as a flag; the message string is
display-only). -/
structure SimState where
  store : Store
  position : Option Position
  currentPrice : ℚ
  candles : List Candle
  qty : ℚ
  tradeHistory : List Trade
  showOutcome : Option Trade
  biasWarning : Bool
  deriving DecidableEq, Repr

/-- `handleTrade(direction)` from src/frontend/src/App.jsx lines 887-899.
If a position is already open the function shows a warning toast and
returns early — it never throws. Otherwise it records the overconfidence
warning flag, opens the position at the current price with
`candleEntry = candles.length`, and shows a success toast. -/
def handleTrade (now : ℤ) (dir : Direction) (s : SimState) :
    Except SimError SimState :=
  if s.position.isSome then
    Except.ok { s with store := addToast ToastType.warning s.store }
  else
    Except.ok { s with
      biasWarning := decide (s.store.confidenceSlider > 85),
      position := some
        { direction := dir, entry := s.currentPrice, qty := s.qty,
          confidence := s.store.confidenceSlider,
          candleEntry := s.candles.length, ts := now },
      store := addToast ToastType.success s.store }

/-- `closePosition()` from src/frontend/src/App.jsx lines 901-920. With no
open position it silently returns (no throw). Otherwise
`exit = currentPrice + (Math.random() - 0.48) * 120` (the draw is `r`),
P&L is the direction formula against this `exit`, and the built trade
stores `exit` and `pnl` rounded via `toFixed(2)` and
`candlesHeld = candles.length - candleEntry`; then the outcome is shown,
the local `tradeHistory` keeps the newest 20, the store is updated via
`addTrade`, `updateBalance` (with the unrounded `pnl`), `addXP`, a toast is
shown, and the position is cleared. -/
def closePosition (now : ℤ) (r : ℚ) (s : SimState) :
    Except SimError SimState :=
  match s.position with
  | none => Except.ok s
  | some position =>
    let exit := s.currentPrice + (r - 48 / 100) * 120
    let pnl :=
      if position.direction = Direction.BUY then
        (exit - position.entry) * position.qty
      else (position.entry - exit) * position.qty
    let trade : Trade :=
      { direction := position.direction, entry := position.entry,
        qty := position.qty, confidence := position.confidence,
        candleEntry := position.candleEntry, ts := position.ts,
        exit := toFixed2 exit, pnl := toFixed2 pnl,
        candlesHeld := (s.candles.length : ℤ) - (position.candleEntry : ℤ) }
    let store := addTrade now trade s.store
    let store := updateBalance pnl store
    let store := addXP (if pnl > 0 then 120 else 30) store
    let store := addToast
      (if pnl > 0 then ToastType.success else ToastType.error) store
    Except.ok { s with
      showOutcome := some trade,
      tradeHistory := (trade :: s.tradeHistory).take 20,
      store := store,
      position := none }

/-- The `unrealizedPnL` expression of `SimulationModule` (lines 922-924):
`null` when flat, otherwise the direction formula against the current price,
formatted with `toFixed(2)` (we model the numeric value of that string). -/
def unrealizedPnL (s : SimState) : Option ℚ :=
  s.position.map fun position =>
    toFixed2 ((if position.direction = Direction.BUY then
        s.currentPrice - position.entry
      else position.entry - s.currentPrice) * position.qty)

/-- The user-interface events of `SimulationModule` that can fire after the
chart-setup effect has run: the BUY/SELL buttons (`handleTrade`), the close
button (`closePosition`, with its ambient `Date.now()` and `Math.random()`
draws), the quantity input, the confidence slider, the delayed
`setShowOutcome(null)`, and dismissing the bias warning. No event mutates
`candles` or `currentPrice`: `setCandles` and `setCurrentPrice` are called
only inside the one-shot setup effect, and no tick timer exists. -/
inductive SimEvent where
  | trade (now : ℤ) (dir : Direction) : SimEvent
  | close (now : ℤ) (r : ℚ) : SimEvent
  | setQty (q : ℚ) : SimEvent
  | setConfidence (c : ℚ) : SimEvent
  | clearOutcome : SimEvent
  | clearWarning : SimEvent

/-- Dispatch one post-setup event. The handlers never throw, so the
`Except.error` branch (which would leave the state unchanged) is dead. -/
def step (s : SimState) : SimEvent → SimState
  | SimEvent.trade now dir =>
      match handleTrade now dir s with
      | Except.ok s' => s'
      | Except.error _ => s
  | SimEvent.close now r =>
      match closePosition now r s with
      | Except.ok s' => s'
      | Except.error _ => s
  | SimEvent.setQty q => { s with qty := q }
  | SimEvent.setConfidence c =>
      { s with store := { s.store with confidenceSlider := c } }
  | SimEvent.clearOutcome => { s with showOutcome := none }
  | SimEvent.clearWarning => { s with biasWarning := false }

/-- Run a sequence of post-setup events. -/
def run (s : SimState) : List SimEvent → SimState
  | [] => s
  | e :: evs => run (step s e) evs

/-- Invariant: any open position was opened at the current candle count. It
holds after setup (no position) and `handleTrade` establishes it. -/
def PosOk (s : SimState) : Prop :=
  ∀ p, s.position = some p → p.candleEntry = s.candles.length

/-- A concrete closed trade used as a test fixture: a winning BUY. -/
def winTrade : Trade :=
  { direction := Direction.BUY, entry := 100, qty := 10, confidence := 50,
    candleEntry := 0, ts := 0, exit := 110, pnl := 100, candlesHeld := 5 }

/-- A concrete losing trade fixture. -/
def lossTrade : Trade := { winTrade with exit := 99.5, pnl := -5 }

/-- A second losing trade fixture (distinct pnl). -/
def lossTrade2 : Trade := { winTrade with exit := 99.7, pnl := -3 }

/-- A store fixture with the given trade history and otherwise the store's
initial values (`balance: 100000`, `xp: 0`, `confidenceSlider: 50`). -/
def storeEx (ts : List Trade) : Store :=
  { trades := ts, biasHistory := [], balance := 100000, pnl := 0, xp := 0,
    xpMax := 1000, confidenceSlider := 50, toasts := [] }

/-- A store fixture whose trade history is at the 50-entry capacity. -/
def fullStore : Store := storeEx (List.replicate 50 winTrade)

/-- A simulation-state fixture with no open position, price 110. -/
def simFlat : SimState :=
  { store := storeEx [], position := none, currentPrice := 110,
    candles := [], qty := 10, tradeHistory := [], showOutcome := none,
    biasWarning := false }

/-- An open BUY position fixture entered at 100 with quantity 10. -/
def posLong : Position :=
  { direction := Direction.BUY, entry := 100, qty := 10, confidence := 50,
    candleEntry := 0, ts := 0 }

/-- The SELL twin of `posLong`. -/
def posShort : Position := { posLong with direction := Direction.SELL }

/-- A simulation-state fixture holding an open BUY position entered at 100
with quantity 10, current price 110. -/
def simLong : SimState := { simFlat with position := some posLong }

/-- The SELL twin of `simLong`. -/
def simShort : SimState := { simFlat with position := some posShort }

/-- The position `handleTrade(BUY)` opens from `simFlat`: entry at the
current price 110, `candleEntry = candles.length = 0`. -/
def posOpened : Position :=
  { direction := Direction.BUY, entry := 110, qty := 10, confidence := 50,
    candleEntry := 0, ts := 0 }

theorem toFixed2_monotone : Monotone toFixed2 := by
  intro x y hxy
  unfold toFixed2
  rcases lt_or_le x 0 with hx | hx
  · rcases lt_or_le y 0 with hy | hy
    · simp only [if_pos hx, if_pos hy]
      rw [neg_le_neg_iff, div_le_div_iff_of_pos_right (by norm_num : (0:ℚ) < 100)]
      exact_mod_cast Int.floor_le_floor (by nlinarith)
    · simp only [if_pos hx, if_neg (not_lt.mpr hy)]
      have h1 : (⌊-x * 100 + 1 / 2⌋ : ℤ) ≥ 0 := by
        apply Int.floor_nonneg.mpr; nlinarith
      have h2 : (⌊y * 100 + 1 / 2⌋ : ℤ) ≥ 0 := by
        apply Int.floor_nonneg.mpr; nlinarith
      have h1' : ((⌊-x * 100 + 1 / 2⌋ : ℤ) : ℚ) ≥ 0 := by exact_mod_cast h1
      have h2' : ((⌊y * 100 + 1 / 2⌋ : ℤ) : ℚ) ≥ 0 := by exact_mod_cast h2
      have := neg_nonpos_of_nonneg (div_nonneg h1' (by norm_num : (0:ℚ) ≤ 100))
      exact le_trans this (div_nonneg h2' (by norm_num))
  · have hy : ¬ y < 0 := not_lt.mpr (le_trans hx hxy)
    simp only [if_neg (not_lt.mpr hx), if_neg hy]
    rw [div_le_div_iff_of_pos_right (by norm_num : (0:ℚ) < 100)]
    exact_mod_cast Int.floor_le_floor (by nlinarith)

/-- `toFixed2` is exact on rationals with at most two decimal places. -/
theorem toFixed2_exact (x : ℚ) (k : ℤ) (hk : x = (k : ℚ) / 100) :
    toFixed2 x = x := by
  subst hk
  unfold toFixed2
  rcases lt_or_le ((k : ℚ) / 100) 0 with h | h
  · rw [if_pos h]
    have : -((k : ℚ) / 100) * 100 + 1 / 2 = ((-k : ℤ) : ℚ) + 1 / 2 := by push_cast; ring
    rw [this, Int.floor_int_add]
    push_cast
    ring_nf
  · rw [if_neg (not_lt.mpr h)]
    have : (k : ℚ) / 100 * 100 + 1 / 2 = ((k : ℤ) : ℚ) + 1 / 2 := by ring
    rw [this, Int.floor_int_add]
    norm_num

theorem toFixed2_max (a b : ℚ) :
    toFixed2 (max a b) = max (toFixed2 a) (toFixed2 b) :=
  toFixed2_monotone.map_max

theorem toFixed2_min (a b : ℚ) :
    toFixed2 (min a b) = min (toFixed2 a) (toFixed2 b) :=
  toFixed2_monotone.map_min

theorem generateOHLCAux_length (vol : ℚ) (now : ℤ) (rng : ℕ → ℚ) :
    ∀ n i close0 j, (generateOHLCAux vol now rng n i close0 j).length = n := by
  intro n
  induction n with
  | zero => intro i close0 j; rfl
  | succ m ih =>
      intro i close0 j
      simp only [generateOHLCAux, List.length_cons, ih]

theorem generateOHLC_length (count : ℕ) (base vol : ℚ) (now : ℤ)
    (rng : ℕ → ℚ) :
    (generateOHLC count base vol now rng).length = count + 1 := by
  unfold generateOHLC
  exact generateOHLCAux_length vol now rng (count + 1) count base 0

/-- Every candle pushed by the generator loop satisfies the bar-geometry
invariants (after the `toFixed(2)` rounding of the stored fields), provided
volatility is non-negative and the random draws are valid. -/
theorem generateOHLCAux_inv (vol : ℚ) (now : ℤ) (rng : ℕ → ℚ)
    (hvol : 0 ≤ vol) (hrng : ValidRng rng) :
    ∀ n i close0 j, ∀ c ∈ generateOHLCAux vol now rng n i close0 j,
      max c.open_ c.close ≤ c.high ∧ c.low ≤ min c.open_ c.close ∧
      0 ≤ c.volume ∧ 0 < c.close := by
  intro n
  induction n with
  | zero => intro i close0 j c hc; simp [generateOHLCAux] at hc
  | succ m ih =>
    intro i close0 j c hc
    simp only [generateOHLCAux, List.mem_cons] at hc
    rcases hc with rfl | hc
    · have h1 : (0 : ℚ) ≤ rng (j + 1) := (hrng (j + 1)).1
      have h2 : (0 : ℚ) ≤ rng (j + 2) := (hrng (j + 2)).1
      have h3 : (0 : ℚ) ≤ rng (j + 3) := (hrng (j + 3)).1
      refine ⟨?_, ?_, ?_, ?_⟩
      · rw [← toFixed2_max]
        apply toFixed2_monotone
        nlinarith [le_max_left close0 (max (close0 + (rng j - 48 / 100) * vol) 1000)]
      · rw [← toFixed2_min]
        apply toFixed2_monotone
        nlinarith [min_le_left close0 (max (close0 + (rng j - 48 / 100) * vol) 1000)]
      · show (0 : ℚ) ≤ ((⌊(50000 : ℚ) + rng (j + 3) * 200000⌋ : ℤ) : ℚ)
        have : (0 : ℤ) ≤ ⌊(50000 : ℚ) + rng (j + 3) * 200000⌋ :=
          Int.floor_nonneg.mpr (by nlinarith)
        exact_mod_cast this
      · have hfloor : (1000 : ℚ) ≤ max (close0 + (rng j - 48 / 100) * vol) 1000 :=
          le_max_right _ _
        have := toFixed2_monotone hfloor
        rw [toFixed2_exact 1000 100000 (by norm_num)] at this
        linarith
    · exact ih _ _ _ c hc

/-- In each loop step the stored `open` is the rounding of the running close
handed in, so the head of the remaining output opens at `toFixed2 close0`. -/
theorem generateOHLCAux_head_open (vol : ℚ) (now : ℤ) (rng : ℕ → ℚ)
    (n : ℕ) (i : ℤ) (close0 : ℚ) (j : ℕ) :
    ∀ c ∈ (generateOHLCAux vol now rng (n + 1) i close0 j).head?,
      c.open_ = toFixed2 close0 := by
  intro c hc
  simp only [generateOHLCAux, List.head?_cons, Option.mem_def,
    Option.some.injEq] at hc
  rw [← hc]

/-- Adjacent generated candles chain: each candle's stored `open` equals the
previous candle's stored `close` (both are `toFixed2` of the same running
close). -/
theorem generateOHLCAux_chain (vol : ℚ) (now : ℤ) (rng : ℕ → ℚ) :
    ∀ n i close0 j, List.Chain' (fun a b => b.open_ = a.close)
      (generateOHLCAux vol now rng n i close0 j) := by
  intro n
  induction n with
  | zero => intro i close0 j; simp [generateOHLCAux]
  | succ m ih =>
    intro i close0 j
    rw [generateOHLCAux, List.chain'_cons']
    refine ⟨?_, ih _ _ _⟩
    intro y hy
    cases m with
    | zero => simp [generateOHLCAux] at hy
    | succ k =>
      have := generateOHLCAux_head_open vol now rng k (i - 1)
        (max (close0 + (rng j - 48 / 100) * vol) 1000) (j + 4) y hy
      simpa using this

/-- Every candle in the remaining output has time at least `now - i * 300`. -/
theorem generateOHLCAux_time_lb (vol : ℚ) (now : ℤ) (rng : ℕ → ℚ) :
    ∀ n i close0 j, ∀ c ∈ generateOHLCAux vol now rng n i close0 j,
      now - i * 300 ≤ c.time := by
  intro n
  induction n with
  | zero => intro i close0 j c hc; simp [generateOHLCAux] at hc
  | succ m ih =>
    intro i close0 j c hc
    simp only [generateOHLCAux, List.mem_cons] at hc
    rcases hc with rfl | hc
    · simp
    · have := ih (i - 1) _ _ c hc
      omega

/-- The times `now - i * 300` for the descending loop counter are strictly
increasing along the generated list. -/
theorem generateOHLCAux_time_sorted (vol : ℚ) (now : ℤ) (rng : ℕ → ℚ) :
    ∀ n i close0 j, List.Pairwise (fun a b => a.time < b.time)
      (generateOHLCAux vol now rng n i close0 j) := by
  intro n
  induction n with
  | zero => intro i close0 j; simp [generateOHLCAux]
  | succ m ih =>
    intro i close0 j
    rw [generateOHLCAux, List.pairwise_cons]
    refine ⟨?_, ih _ _ _⟩
    intro c hc
    have := generateOHLCAux_time_lb vol now rng m (i - 1) _ _ c hc
    simp only
    omega

/-- C1 counterexample: with an open position (`simLong`), `handleTrade`
does not raise — it returns an `ok` state — and with no position
(`simFlat`), `closePosition` silently returns the state unchanged, so the
claimed `InvalidStateError` is never raised and the flat `close()` is
silently ignored. -/
theorem c1_no_invalid_state_error :
    simLong.position.isSome = true ∧
    (handleTrade 0 Direction.BUY simLong).toOption.isSome = true ∧
    simFlat.position = none ∧
    (closePosition 0 0 simFlat).toOption = some simFlat := by
  decide

/-- C1 (amended): attempting `open()` while a position is already OPEN is
rejected without raising: `handleTrade` returns early with only a warning
toast appended, leaving the existing position's fields and all trading
state unchanged; `close()` while FLAT is a silent no-op returning the state
unchanged. No `InvalidStateError` (or any error) is raised in either case. -/
theorem c1_silent_rejection (now : ℤ) (dir : Direction) (r : ℚ)
    (s sf : SimState) (p : Position)
    (hs : s.position = some p) (hf : sf.position = none) :
    (∃ s', handleTrade now dir s = Except.ok s' ∧
      s'.position = some p ∧
      s'.currentPrice = s.currentPrice ∧
      s'.candles = s.candles ∧
      s'.qty = s.qty ∧
      s'.store.trades = s.store.trades ∧
      s'.store.balance = s.store.balance ∧
      s'.store.toasts = s.store.toasts ++ [ToastType.warning]) ∧
    closePosition now r sf = Except.ok sf := by
  constructor
  · refine ⟨{ s with store := addToast ToastType.warning s.store }, ?_,
      hs, rfl, rfl, rfl, rfl, rfl, rfl⟩
    simp [handleTrade, hs]
  · simp [closePosition, hf]

/-- Witness for `c1_silent_rejection` at the concrete states `simLong`
(position open) and `simFlat` (flat). -/
theorem c1_silent_rejection_witness :
    (∃ s', handleTrade 0 Direction.BUY simLong = Except.ok s' ∧
      s'.position = some posLong ∧
      s'.currentPrice = simLong.currentPrice ∧
      s'.candles = simLong.candles ∧
      s'.qty = simLong.qty ∧
      s'.store.trades = simLong.store.trades ∧
      s'.store.balance = simLong.store.balance ∧
      s'.store.toasts = simLong.store.toasts ++ [ToastType.warning]) ∧
    closePosition 0 0 simFlat = Except.ok simFlat :=
  c1_silent_rejection 0 Direction.BUY 0 simLong simFlat posLong
    (by decide) (by decide)

/-- Head of a `take (n+1)` of a cons cell. -/
theorem take_cons_head? {α : Type} (n : ℕ) (a : α) (l : List α) :
    ((a :: l).take (n + 1)).head? = some a := rfl

/-- C2 counterexample: closing `simLong` (current price 110) with ambient
draw `0.98` (a legal `Math.random()` value) records exit price 170, not the
current price 110 — `closePosition` adds the random slippage term
`(Math.random() - 0.48) * 120` to the current price, so the Trade's exit
price does not equal the current price at the moment of closing. -/
theorem c2_exit_not_current_price :
    (0 : ℚ) ≤ 98 / 100 ∧ (98 : ℚ) / 100 < 1 ∧
    simLong.currentPrice = 110 ∧
    ((closePosition 0 (98 / 100) simLong).toOption.bind
      (fun s' => s'.store.trades.head?)).map Trade.exit = some 170 ∧
    ((170 : ℚ) ≠ 110) := by
  refine ⟨by norm_num, by norm_num, rfl, ?_, by norm_num⟩
  simp only [closePosition, simLong, simFlat, posLong, storeEx, addTrade,
    detectBiases, addToast, updateBalance, addXP, Except.toOption]
  norm_num [toFixed2]

/-- C2 (amended): for every close of an open position, the Trade's exit
price equals `toFixed2(currentPrice + (r - 0.48) * 120)` where `r` is the
ambient random draw — a random slippage of up to ±60 price units is
applied — and `realizedPnL` is the direction formula evaluated against
this slipped (unrounded) exit, then rounded. The exit equals the current
price only when the draw is exactly 0.48. -/
theorem c2_exit_with_slippage (now : ℤ) (r : ℚ) (s : SimState)
    (p : Position) (hp : s.position = some p) :
    ∃ s' t, closePosition now r s = Except.ok s' ∧
      s'.store.trades.head? = some t ∧
      t.exit = toFixed2 (s.currentPrice + (r - 48 / 100) * 120) ∧
      t.pnl = toFixed2 (if p.direction = Direction.BUY
        then (s.currentPrice + (r - 48 / 100) * 120 - p.entry) * p.qty
        else (p.entry - (s.currentPrice + (r - 48 / 100) * 120)) * p.qty) := by
  simp only [closePosition, hp]
  exact ⟨_, _, rfl, take_cons_head? 49 _ _, rfl, rfl⟩

/-- Witness for `c2_exit_with_slippage` at `simLong` with draw `0.98`. -/
theorem c2_exit_with_slippage_witness :
    ∃ s' t, closePosition 0 (98 / 100) simLong = Except.ok s' ∧
      s'.store.trades.head? = some t ∧
      t.exit = toFixed2 (simLong.currentPrice + (98 / 100 - 48 / 100) * 120) ∧
      t.pnl = toFixed2 (if posLong.direction = Direction.BUY
        then (simLong.currentPrice + (98 / 100 - 48 / 100) * 120
          - posLong.entry) * posLong.qty
        else (posLong.entry
          - (simLong.currentPrice + (98 / 100 - 48 / 100) * 120))
          * posLong.qty) :=
  c2_exit_with_slippage 0 (98 / 100) simLong posLong (by decide)

/-- C3: while a position is open, the unrealized P&L is exactly
`(direction == BUY ? currentPrice − entry : entry − currentPrice) * qty`
(the `toFixed(2)` formatting is lossless because prices carry at most two
decimals and the quantity is integral); and realized P&L uses the same
formula against the exit price: closing the fixture LONG entry=100 at
exit=110 with qty=10 (draw 0.48, so the exit is exactly the current
price 110) realizes +100, and the SHORT twin realizes −100. -/
theorem c3_pnl_formula (s : SimState) (p : Position)
    (hp : s.position = some p)
    (ke : ℤ) (he : p.entry = (ke : ℚ) / 100)
    (kc : ℤ) (hc : s.currentPrice = (kc : ℚ) / 100)
    (n : ℤ) (hq : p.qty = (n : ℚ)) :
    (unrealizedPnL s = some ((if p.direction = Direction.BUY
      then s.currentPrice - p.entry
      else p.entry - s.currentPrice) * p.qty)) ∧
    ((closePosition 0 (48 / 100) simLong).toOption.bind
      (fun s' => s'.store.trades.head?)).map Trade.exit = some 110 ∧
    ((closePosition 0 (48 / 100) simLong).toOption.bind
      (fun s' => s'.store.trades.head?)).map Trade.pnl = some 100 ∧
    ((closePosition 0 (48 / 100) simShort).toOption.bind
      (fun s' => s'.store.trades.head?)).map Trade.pnl = some (-100) := by
  refine ⟨?_, ?_, ?_, ?_⟩
  · cases hdir : p.direction with
    | BUY =>
        simp only [unrealizedPnL, hp, Option.map_some', hdir, if_pos rfl,
          Option.some.injEq]
        exact toFixed2_exact ((s.currentPrice - p.entry) * p.qty)
          ((kc - ke) * n) (by rw [he, hc, hq]; push_cast; ring)
    | SELL =>
        have hne : ¬ (Direction.SELL = Direction.BUY) := by decide
        simp only [unrealizedPnL, hp, Option.map_some', hdir, if_neg hne,
          Option.some.injEq]
        exact toFixed2_exact ((p.entry - s.currentPrice) * p.qty)
          ((ke - kc) * n) (by rw [he, hc, hq]; push_cast; ring)
  · simp only [closePosition, simLong, simFlat, posLong, storeEx, addTrade,
      detectBiases, addToast, updateBalance, addXP, Except.toOption]
    norm_num [toFixed2]
  · simp only [closePosition, simLong, simFlat, posLong, storeEx, addTrade,
      detectBiases, addToast, updateBalance, addXP, Except.toOption]
    norm_num [toFixed2]
  · have hdir : ¬ (Direction.SELL = Direction.BUY) := by decide
    simp only [closePosition, simShort, simFlat, posShort, posLong, storeEx,
      addTrade, detectBiases, addToast, updateBalance, addXP, Except.toOption,
      if_neg hdir]
    norm_num [toFixed2]

/-- Witness for `c3_pnl_formula` at `simLong` (BUY, entry 100, price 110,
qty 10): the unrealized P&L is `(110 − 100) * 10 = 100`. -/
theorem c3_pnl_formula_witness :
    (unrealizedPnL simLong = some ((if posLong.direction = Direction.BUY
      then simLong.currentPrice - posLong.entry
      else posLong.entry - simLong.currentPrice) * posLong.qty)) ∧
    ((closePosition 0 (48 / 100) simLong).toOption.bind
      (fun s' => s'.store.trades.head?)).map Trade.exit = some 110 ∧
    ((closePosition 0 (48 / 100) simLong).toOption.bind
      (fun s' => s'.store.trades.head?)).map Trade.pnl = some 100 ∧
    ((closePosition 0 (48 / 100) simShort).toOption.bind
      (fun s' => s'.store.trades.head?)).map Trade.pnl = some (-100) :=
  c3_pnl_formula simLong posLong (by decide)
    10000 (by norm_num [posLong])
    11000 (by norm_num [simLong, simFlat])
    10 (by norm_num [posLong])

/-- C4: every candle produced by `generateOHLC` satisfies
`high ≥ max(open, close)`, `low ≤ min(open, close)`, `volume ≥ 0` and
`close > 0` (the `max(…, 1000)` price floor), and these hold on the stored
values after the `toFixed(2)` rounding, for any count, base price,
non-negative volatility and valid ambient random draws. -/
theorem c4_candle_invariants (count : ℕ) (base vol : ℚ) (now : ℤ)
    (rng : ℕ → ℚ) (hvol : 0 ≤ vol) (hrng : ValidRng rng) :
    ∀ c ∈ generateOHLC count base vol now rng,
      c.high ≥ max c.open_ c.close ∧ c.low ≤ min c.open_ c.close ∧
      c.volume ≥ 0 ∧ c.close > 0 := by
  intro c hc
  have h := generateOHLCAux_inv vol now rng hvol hrng (count + 1)
    (count : ℤ) base 0 c hc
  exact ⟨h.1, h.2.1, h.2.2.1, h.2.2.2⟩

/-- Witness for `c4_candle_invariants`: the first candle of the generator
run with count 0, base 22000, volatility 80 and the all-zero draw stream
satisfies all four bar-geometry invariants. -/
theorem c4_candle_invariants_witness :
    (generateOHLC 0 22000 80 0 (fun _ => 0)).head?.elim False
      (fun c => c.high ≥ max c.open_ c.close ∧
        c.low ≤ min c.open_ c.close ∧ c.volume ≥ 0 ∧ c.close > 0) := by
  have h := c4_candle_invariants 0 22000 80 0 (fun _ => 0) (by norm_num)
    (fun n => by norm_num)
  obtain ⟨c, hc1, hc2⟩ : ∃ c,
      (generateOHLC 0 22000 80 0 (fun _ => 0)).head? = some c ∧
      c ∈ generateOHLC 0 22000 80 0 (fun _ => 0) :=
    ⟨_, rfl, List.mem_cons_self _ _⟩
  rw [hc1]
  exact h c hc2

/-- C5 counterexample: called with `count = 0` the generator produces one
candle, not zero — the loop `for (let i = count; i >= 0; i--)` is inclusive
of `0`, so `generateOHLC(count, …)` always yields `count + 1` candles, not
`count`. -/
theorem c5_off_by_one :
    (generateOHLC 0 22000 80 0 (fun _ => 0)).length = 1 ∧ (1 : ℕ) ≠ 0 :=
  ⟨generateOHLC_length 0 22000 80 0 (fun _ => 0), by norm_num⟩

/-- C5 (amended): `generateOHLC(count, base, volatility)` produces exactly
`count + 1` candles (one more than the count argument); each step is an
additive random walk in which the stored `open` of every candle equals the
stored `close` of its predecessor, and the `time` fields are strictly
increasing (hence unique). -/
theorem c5_seed_walk (count : ℕ) (base vol : ℚ) (now : ℤ) (rng : ℕ → ℚ) :
    (generateOHLC count base vol now rng).length = count + 1 ∧
    List.Chain' (fun a b => b.open_ = a.close)
      (generateOHLC count base vol now rng) ∧
    List.Pairwise (fun a b => a.time < b.time)
      (generateOHLC count base vol now rng) :=
  ⟨generateOHLC_length count base vol now rng,
   generateOHLCAux_chain vol now rng (count + 1) (count : ℤ) base 0,
   generateOHLCAux_time_sorted vol now rng (count + 1) (count : ℤ) base 0⟩

/-- C9 counterexample: two runs of `generateOHLC` with identical arguments
(count 0, base 22000, volatility 80, same clock) but different ambient
`Math.random()` sequences — both legal, all draws in `[0, 1)` — produce
different candle lists (their head volumes are 50000 vs 100000). The RNG is
the ambient `Math.random`, not an injectable seeded source, so generator
output is not reproducible from the arguments alone. -/
theorem c9_not_reproducible :
    ValidRng (fun _ => 0) ∧ ValidRng (fun _ => 1 / 4) ∧
    generateOHLC 0 22000 80 0 (fun _ => 0) ≠
      generateOHLC 0 22000 80 0 (fun _ => 1 / 4) := by
  refine ⟨fun n => by norm_num, fun n => by norm_num, ?_⟩
  intro h
  have h2 := congrArg (fun l => (l.map Candle.volume).head?) h
  simp only [generateOHLC, generateOHLCAux, List.map_cons, List.head?_cons,
    Option.some.injEq] at h2
  norm_num at h2

/-- C9 (amended): the generator's randomness is hard-wired to the ambient
`Math.random` stream — its arguments are only `(count, base, volatility)`
plus the ambient clock — and for every choice of those arguments there are
two valid ambient random sequences yielding different candle lists, so
output is reproducible only if the ambient random sequence itself is
replayed. -/
theorem c9_ambient_rng (count : ℕ) (base vol : ℚ) (now : ℤ) :
    ∃ r1 r2 : ℕ → ℚ, ValidRng r1 ∧ ValidRng r2 ∧
      generateOHLC count base vol now r1 ≠
        generateOHLC count base vol now r2 := by
  refine ⟨fun _ => 0, fun _ => 1 / 4, fun n => by norm_num,
    fun n => by norm_num, ?_⟩
  intro h
  have h2 := congrArg (fun l => (l.map Candle.volume).head?) h
  simp only [generateOHLC, generateOHLCAux, List.map_cons, List.head?_cons,
    Option.some.injEq] at h2
  norm_num at h2

/-- C6: `addTrade` caps the trade history at 50 entries
(`[trade, ...trades].slice(0, 50)`): the new length is
`min(old + 1, 50)`, so the history never exceeds 50; appending to a full
50-entry history yields the new trade followed by the old history minus its
last (oldest) entry — exact FIFO eviction retaining all others in order —
and anything outside that retained list (in particular the evicted oldest
entry) is absent from the history `detectBiases` reads. -/
theorem c6_capacity (now : ℤ) (t : Trade) (s : Store) :
    (addTrade now t s).trades.length = min (s.trades.length + 1) 50 ∧
    (s.trades.length = 50 →
      (addTrade now t s).trades = t :: s.trades.dropLast) ∧
    (s.trades.length = 50 → ∀ e : Trade, e ∉ t :: s.trades.dropLast →
      e ∉ (addTrade now t s).trades) := by
  have htr : (addTrade now t s).trades = (t :: s.trades).take 50 := rfl
  have key : s.trades.length = 50 →
      (addTrade now t s).trades = t :: s.trades.dropLast := by
    intro h50
    rw [htr, show (50 : ℕ) = 49 + 1 from rfl, List.take_succ_cons,
      List.dropLast_eq_take, h50]
  refine ⟨?_, key, ?_⟩
  · rw [htr, List.length_take, List.length_cons, Nat.min_comm]
  · intro h50 e he hmem
    rw [key h50] at hmem
    exact he hmem

/-- Witness for `c6_capacity` at the 50-entry `fullStore`: inserting a 51st
trade keeps the length at 50 and drops exactly the oldest entry. -/
theorem c6_capacity_witness :
    fullStore.trades.length = 50 ∧
    (addTrade 0 lossTrade fullStore).trades =
      lossTrade :: fullStore.trades.dropLast ∧
    (addTrade 0 lossTrade fullStore).trades.length =
      min (fullStore.trades.length + 1) 50 :=
  ⟨by simp [fullStore, storeEx],
   (c6_capacity 0 lossTrade fullStore).2.1 (by simp [fullStore, storeEx]),
   (c6_capacity 0 lossTrade fullStore).1⟩

/-- C7: `detectBiases` flags `"Revenge Trading"` exactly when the trade
history has at least two entries and the two most recent both have
`pnl < 0` — independently of the new trade, so with such a history every
new trade is flagged; with a single (losing) entry or an empty history the
rule does not fire, and the detector is a total function (it never
throws). -/
theorem c7_revenge_iff (t : Trade) (s : Store) :
    "Revenge Trading" ∈ detectBiases t s ↔
      ∃ a b rest, s.trades = a :: b :: rest ∧ a.pnl < 0 ∧ b.pnl < 0 := by
  constructor
  · intro hmem
    rcases hs : s.trades with _ | ⟨a, _ | ⟨b, rest⟩⟩
    · exfalso
      simp [detectBiases, hs] at hmem
    · exfalso
      simp only [detectBiases, hs] at hmem
      split_ifs at hmem <;> simp_all
    · refine ⟨a, b, rest, rfl, ?_⟩
      simp only [detectBiases, hs] at hmem
      split_ifs at hmem <;> simp_all
  · rintro ⟨a, b, rest, hs, ha, hb⟩
    simp [detectBiases, hs, ha, hb]

/-- C8: inside `addTrade`, bias detection runs against the store state
*before* the new trade is prepended (`detectBiases(trade, get())` precedes
the `set`). Observable consequence: a losing trade closed onto a history
holding exactly one losing entry records no bias entry at all (the detector
saw one prior loss, not two), whereas evaluating the detector on the
post-append history would have flagged `"Revenge Trading"`. -/
theorem c8_detect_pre_append (now : ℤ) (t l : Trade) (s : Store)
    (h1 : s.trades = [l]) (h2 : l.pnl < 0) (h3 : t.pnl < 0)
    (h4 : ¬ t.confidence > 85) (h5 : ¬ t.candlesHeld < 3) :
    detectBiases t s = [] ∧
    (addTrade now t s).biasHistory = s.biasHistory.take 20 ∧
    "Revenge Trading" ∈ detectBiases t { s with trades := t :: s.trades } := by
  have hd : detectBiases t s = [] := by
    simp [detectBiases, h1, h4, h5, lt_asymm h2]
  refine ⟨hd, ?_, ?_⟩
  · show (addTrade now t s).biasHistory = s.biasHistory.take 20
    simp [addTrade, hd]
  · simp [detectBiases, h1, h2, h3]

/-- Witness for `c8_detect_pre_append`: new losing trade `lossTrade2`
closed onto a history holding only `lossTrade`. -/
theorem c8_detect_pre_append_witness :
    detectBiases lossTrade2 (storeEx [lossTrade]) = [] ∧
    (addTrade 0 lossTrade2 (storeEx [lossTrade])).biasHistory =
      (storeEx [lossTrade]).biasHistory.take 20 ∧
    "Revenge Trading" ∈ detectBiases lossTrade2
      { storeEx [lossTrade] with
        trades := lossTrade2 :: (storeEx [lossTrade]).trades } :=
  c8_detect_pre_append 0 lossTrade2 lossTrade (storeEx [lossTrade]) rfl
    (by norm_num [lossTrade, winTrade])
    (by norm_num [lossTrade2, winTrade])
    (by norm_num [lossTrade2, winTrade])
    (by norm_num [lossTrade2, winTrade])

/-- A trade held for fewer than 3 candles is always flagged `"Early Exit"`
by `detectBiases`, whatever the history. -/
theorem early_exit_mem (t : Trade) (st : Store) (h : t.candlesHeld < 3) :
    "Early Exit" ∈ detectBiases t st := by
  simp [detectBiases, h]

/-- When the detector flags `"Early Exit"` for the trade, `addTrade`
records a `biasHistory` entry carrying that flag at the head. -/
theorem addTrade_biasHistory_head (now : ℤ) (t : Trade) (st : Store)
    (h : "Early Exit" ∈ detectBiases t st) :
    ∃ e, (addTrade now t st).biasHistory.head? = some e ∧
      "Early Exit" ∈ e.biases := by
  have hne : (detectBiases t st).length ≠ 0 := by
    intro h0
    rw [List.length_eq_zero] at h0
    rw [h0] at h
    exact List.not_mem_nil _ h
  refine ⟨⟨t, detectBiases t st, now⟩, ?_, h⟩
  show ((if (detectBiases t st).length ≠ 0
    then (⟨t, detectBiases t st, now⟩ : BiasEntry) :: st.biasHistory
    else st.biasHistory).take 20).head? = _
  rw [if_pos hne]
  exact take_cons_head? 19 _ _

/-- Closing a position whose `candleEntry` equals the current candle count
builds a trade with `candlesHeld = 0`, which the detector flags
`"Early Exit"`, and the flag is recorded in the store's `biasHistory`. -/
theorem closePosition_early_exit (now : ℤ) (r : ℚ) (s : SimState)
    (p : Position) (hp : s.position = some p)
    (hc : p.candleEntry = s.candles.length) :
    ∃ s' t, closePosition now r s = Except.ok s' ∧
      s'.store.trades.head? = some t ∧
      t.candlesHeld = 0 ∧
      "Early Exit" ∈ detectBiases t s.store ∧
      ∃ e, s'.store.biasHistory.head? = some e ∧
        "Early Exit" ∈ e.biases := by
  have hzero : (s.candles.length : ℤ) - (p.candleEntry : ℤ) = 0 := by
    rw [hc]; exact sub_self _
  have hlt : (s.candles.length : ℤ) - (p.candleEntry : ℤ) < 3 := by
    rw [hc, sub_self]; norm_num
  simp only [closePosition, hp]
  exact ⟨_, _, rfl, take_cons_head? 49 _ _, hzero,
    early_exit_mem _ _ hlt,
    addTrade_biasHistory_head now _ _ (early_exit_mem _ _ hlt)⟩

/-- No post-setup event of `SimulationModule` changes the candle list:
there is no tick timer, and `setCandles` runs only in the setup effect. -/
theorem step_candles (s : SimState) (e : SimEvent) :
    (step s e).candles = s.candles := by
  cases e with
  | trade now dir =>
      by_cases h : s.position.isSome <;> simp [step, handleTrade, h]
  | close now r =>
      cases hp : s.position with
      | none => simp [step, closePosition, hp]
      | some p => simp [step, closePosition, hp]
  | setQty q => rfl
  | setConfidence c => rfl
  | clearOutcome => rfl
  | clearWarning => rfl

/-- Every post-setup event preserves the invariant that an open position's
`candleEntry` equals the current candle count: `handleTrade` establishes it
by construction and `closePosition` clears the position. -/
theorem step_posOk (s : SimState) (e : SimEvent) (h : PosOk s) :
    PosOk (step s e) := by
  cases e with
  | trade now dir =>
      by_cases hs : s.position.isSome
      · intro p hp
        simp only [step, handleTrade, if_pos hs] at hp ⊢
        exact h p hp
      · intro p hp
        simp only [step, handleTrade, if_neg hs, Option.some.injEq] at hp ⊢
        subst hp
        rfl
  | close now r =>
      cases hps : s.position with
      | none =>
          intro p hp
          simp only [step, closePosition, hps] at hp ⊢
          exact Option.noConfusion hp
      | some q =>
          intro p hp
          simp only [step, closePosition, hps] at hp
          exact Option.noConfusion hp
  | setQty q => intro p hp; exact h p hp
  | setConfidence c => intro p hp; exact h p hp
  | clearOutcome => intro p hp; exact h p hp
  | clearWarning => intro p hp; exact h p hp

/-- Candle preservation extends to any event sequence. -/
theorem run_candles (evs : List SimEvent) :
    ∀ s : SimState, (run s evs).candles = s.candles := by
  induction evs with
  | nil => intro s; rfl
  | cons e evs ih =>
      intro s
      rw [run, ih (step s e), step_candles]

/-- The open-position invariant extends to any event sequence. -/
theorem run_posOk (evs : List SimEvent) :
    ∀ s : SimState, PosOk s → PosOk (run s evs) := by
  induction evs with
  | nil => intro s h; exact h
  | cons e evs ih => intro s h; exact ih (step s e) (step_posOk s e h)

/-- C10: from any post-setup state whose open position (if any) was entered
at the current candle count, no sequence of simulation events ever changes
the candle list — the candles are generated once at chart setup and never
ticked, mutated or extended — and consequently every position opened during
the run and later closed yields a trade with
`candlesHeld = candles.length - candleEntry = 0 < 3`, which `detectBiases`
flags `"Early Exit"` and records in the bias history. -/
theorem c10_static_candles_early_exit (s0 : SimState) (evs : List SimEvent)
    (h0 : PosOk s0) :
    (run s0 evs).candles = s0.candles ∧
    ∀ p now r, (run s0 evs).position = some p →
      ∃ s' t, closePosition now r (run s0 evs) = Except.ok s' ∧
        s'.store.trades.head? = some t ∧
        t.candlesHeld = 0 ∧
        "Early Exit" ∈ detectBiases t (run s0 evs).store ∧
        ∃ e, s'.store.biasHistory.head? = some e ∧
          "Early Exit" ∈ e.biases := by
  refine ⟨run_candles evs s0, ?_⟩
  intro p now r hp
  exact closePosition_early_exit now r (run s0 evs) p hp
    (run_posOk evs s0 h0 p hp)

/-- Witness for `c10_static_candles_early_exit`: open a BUY from `simFlat`
and close it; the candles are unchanged and the resulting trade is flagged
`"Early Exit"`. -/
theorem c10_static_candles_early_exit_witness :
    (run simFlat [SimEvent.trade 0 Direction.BUY]).candles =
      simFlat.candles ∧
    ∃ s' t, closePosition 7 0
        (run simFlat [SimEvent.trade 0 Direction.BUY]) = Except.ok s' ∧
      s'.store.trades.head? = some t ∧
      t.candlesHeld = 0 ∧
      "Early Exit" ∈ detectBiases t
        (run simFlat [SimEvent.trade 0 Direction.BUY]).store ∧
      ∃ e, s'.store.biasHistory.head? = some e ∧
        "Early Exit" ∈ e.biases := by
  have h := c10_static_candles_early_exit simFlat
    [SimEvent.trade 0 Direction.BUY]
    (fun p hp => by simp [simFlat] at hp)
  exact ⟨h.1, h.2 posOpened 7 0 (by decide)⟩
